import Mathlib

/-! Verification model of `logger.go`.

A shallow embedding of the package `logger` (one file, `logger.go`): the
process-wide `defaultLogger`, the `sync.Once` guard of `Setup`, the two
emission methods `log` and `logf`, the eight entry points, `Close` and
`SetLogLevel`.

The package keeps its state in two package variables and acts on the outside
world through the console, the file system and the wall clock.  All of that is
collected in one record, `World`, and every operation is a function
`World → Except Failure World`: `Except.error` is a Go run-time panic or the
`os.Exit(1)` of `log.Fatalf`, `Except.ok` is a normal return.

Execution is sequential.  `sync.Mutex` and the concurrent behaviour of
`sync.Once` are outside the model: in a sequential run `Lock`/`Unlock` leave the
mutex as they found it, and `once.Do` runs its argument on the first call only.

The Go standard library is modelled only as far as this file uses it:
`time.Time.Format(time.RFC3339)`, the header of `log.Logger` for the flags
`log.LstdFlags`, `fmt.Println`, `os.OpenFile` in append mode, and
`(*os.File).Write` / `Close`.  `fmt.Sprintf` with a caller-supplied template is
a parameter `sprintf` of the formatted entry points.  It returns the expansion,
or `none` when the call panics: `fmt` recovers a panic raised by an argument's
own `String`/`Error` method and prints it, but raises it again when printing
the panic value panics in turn, and `logf` has no `recover`.  The fixed
template `"%s[%s] %s%s: %s%s"` applied to six strings cannot panic and is their
concatenation around the literal pieces.
-/

namespace logger

/-! ## Levels and colour tables (`logger.go` lines 11-42) -/

/-- LogLevel type for setting log levels: Go `type LogLevel int`. -/
abbrev LogLevel := Int

/-- Level `DEBUG`, `iota = 0`. -/
abbrev DEBUG : LogLevel := 0
/-- Level `INFO`, `iota = 1`. -/
abbrev INFO : LogLevel := 1
/-- Level `WARN`, `iota = 2`. -/
abbrev WARN : LogLevel := 2
/-- Level `ERROR`, `iota = 3`. -/
abbrev ERROR : LogLevel := 3
/-- Level `NONE`, `iota = 4`. -/
abbrev NONE : LogLevel := 4

/-- The map `levelColors`; a key that is absent reads as the empty string, as a
Go map lookup does. -/
def levelColors (level : LogLevel) : String :=
  if level = DEBUG then "\x1b[90m"
  else if level = INFO then "\x1b[36m"
  else if level = WARN then "\x1b[33m"
  else if level = ERROR then "\x1b[31m"
  else ""

/-- The map `consoleColors`, with the single key `"reset"`. -/
def consoleColors (key : String) : String :=
  if key = "reset" then "\x1b[0m" else ""

/-! ## Wall clock and the two time renderings of the standard library -/

/-- A reading of the wall clock in the local zone: civil date and time of day,
and the zone offset in seconds east of UTC.  `time.Now()` yields years of the
common era, so the fields are natural numbers. -/
structure Time where
  year : Nat
  month : Nat
  day : Nat
  hour : Nat
  minute : Nat
  second : Nat
  offset : Int
deriving DecidableEq

/-- The ASCII digit of `i mod 10`: Go `byte(48 + i - q*10)` with `q = i / 10`. -/
def digitChar (i : Nat) : Char := Char.ofNat (48 + i % 10)

/-- The loop of `log.itoa`: while `i >= 10 || wid > 1`, put the last digit of
`i` in front of what is already there, drop it from `i` and decrease `wid`;
then put the remaining digit.  `fuel` bounds the number of rounds. -/
def itoaLoop : Nat → Nat → Nat → List Char → List Char
  | 0, i, _, acc => digitChar i :: acc
  | fuel + 1, i, wid, acc =>
    if 10 ≤ i ∨ 1 < wid then itoaLoop fuel (i / 10) (wid - 1) (digitChar i :: acc)
    else digitChar i :: acc

/-- Decimal rendering of `i`, zero-padded to at least `wid` digits: what
`log.itoa` and, for a non-negative value, `time.appendInt` append.  Every round
of the loop decreases `i + wid`, which is the fuel given. -/
def itoa (i wid : Nat) : List Char := itoaLoop (i + wid) i wid []

/-- The zone part `Z07:00` of the RFC3339 layout: `Z` for offset zero, else the
sign and the offset in hours and minutes (`zone := offset / 60`, Go division
truncating toward zero). -/
def zoneSuffix (offset : Int) : List Char :=
  if offset = 0 then [Char.ofNat 90]
  else
    let zone := offset.tdiv 60
    if zone < 0 then
      Char.ofNat 45 :: (itoa ((-zone).toNat / 60) 2 ++ Char.ofNat 58 :: itoa ((-zone).toNat % 60) 2)
    else
      Char.ofNat 43 :: (itoa (zone.toNat / 60) 2 ++ Char.ofNat 58 :: itoa (zone.toNat % 60) 2)

/-- Rendering `t.Format(time.RFC3339)`, layout `2006-01-02T15:04:05Z07:00`. -/
def formatRFC3339 (t : Time) : String :=
  String.mk (itoa t.year 4 ++ Char.ofNat 45 :: (itoa t.month 2 ++ Char.ofNat 45 :: (itoa t.day 2 ++
    Char.ofNat 84 :: (itoa t.hour 2 ++ Char.ofNat 58 :: (itoa t.minute 2 ++ Char.ofNat 58 ::
    (itoa t.second 2 ++ zoneSuffix t.offset))))))

/-- Flag `log.Ldate`. -/
abbrev Ldate : Nat := 1
/-- Flag `log.Ltime`. -/
abbrev Ltime : Nat := 2
/-- Flag set `log.LstdFlags = Ldate | Ltime`. -/
abbrev LstdFlags : Nat := Ldate ||| Ltime

/-- The header `log.formatHeader` puts before a message, for the flag bits
`Ldate` and `Ltime` (the only ones this package sets): the writer's own text,
then `2006/01/02 ` and `15:04:05 `. -/
def formatHeader (pfx : String) (flag : Nat) (t : Time) : String :=
  pfx
    ++ (if flag &&& Ldate ≠ 0 then
          String.mk (itoa t.year 4 ++ Char.ofNat 47 :: (itoa t.month 2 ++ Char.ofNat 47 ::
            (itoa t.day 2 ++ [Char.ofNat 32])))
        else "")
    ++ (if flag &&& Ltime ≠ 0 then
          String.mk (itoa t.hour 2 ++ Char.ofNat 58 :: (itoa t.minute 2 ++ Char.ofNat 58 ::
            (itoa t.second 2 ++ [Char.ofNat 32])))
        else "")

/-! ## The process and its environment -/

/-- A `*os.File`: a reference into the table of file objects of the process. -/
structure OsFile where
  id : Nat
deriving DecidableEq

/-- A `*log.Logger` as `log.New(out, pfx, flag)` builds it. -/
structure StdLogger where
  out : OsFile
  pfx : String
  flag : Nat
deriving DecidableEq

/-- Logger struct represents a logger.  The field `mu sync.Mutex` has no
sequential content and is left out. -/
structure Logger where
  logLevel : LogLevel
  logFile : Option OsFile
  fileWriter : Option StdLogger
deriving DecidableEq

/-- A call made on the file API of package `os`, with whether it succeeded. -/
inductive FileCall where
  | openFile (name : String) (ok : Bool)
  | write (f : OsFile) (data : String) (ok : Bool)
  | close (f : OsFile) (ok : Bool)
deriving DecidableEq

/-- The state of the process and of the world around it. -/
structure World where
  /-- Package variable `defaultLogger *Logger`; `none` is the nil pointer. -/
  defaultLogger : Option Logger
  /-- Whether `once sync.Once` has run. -/
  onceDone : Bool
  /-- Everything written to standard output so far. -/
  stdout : String
  /-- The content of each file that exists. -/
  files : String → Option String
  /-- The paths that cannot be opened or created for appending. -/
  denied : String → Bool
  /-- The file objects that are open, each with the path it was opened on. -/
  handles : List (Nat × String)
  /-- The next unused file-object id. -/
  nextHandle : Nat
  /-- The calls made on the file API so far, oldest first. -/
  fileCalls : List FileCall
  /-- The readings the wall clock gives, in order. -/
  clock : Nat → Time
  /-- How many readings have been taken. -/
  ticks : Nat

/-- How an operation ends when it does not return. -/
inductive Failure where
  /-- Run-time panic: invalid memory address or nil pointer dereference. -/
  | nilDereference
  /-- The call `log.Fatalf`: message on standard error, then `os.Exit(1)`. -/
  | fatalExit
  /-- Run-time panic raised inside `fmt.Sprintf` and not recovered. -/
  | formatPanic
deriving DecidableEq

/-- The process at start: no logger, guard not run, nothing written, no file
object, in a world with the given files, unopenable paths and clock. -/
def World.start (files : String → Option String) (denied : String → Bool)
    (clock : Nat → Time) : World :=
  { defaultLogger := none, onceDone := false, stdout := "", files := files, denied := denied,
    handles := [], nextHandle := 0, fileCalls := [], clock := clock, ticks := 0 }

/-- The call `time.Now()`: the next reading of the clock. -/
def timeNow (w : World) : Time × World :=
  (w.clock w.ticks, { w with ticks := w.ticks + 1 })

/-- The call `fmt.Println(s)`: `s` and a newline go to standard output. -/
def fmtPrintln (s : String) (w : World) : World :=
  { w with stdout := w.stdout ++ s ++ "\n" }

/-- The file system with the content of `name` set to `content`. -/
def setFile (files : String → Option String) (name content : String) : String → Option String :=
  fun q => if q = name then some content else files q

/-- The call `os.OpenFile(name, O_APPEND|O_CREATE|O_WRONLY, 0644)`: fails on a
path that cannot be opened; otherwise creates the file empty if it is absent,
keeps its content if it exists, and returns a new open file object. -/
def osOpenFile (name : String) (w : World) : Option OsFile × World :=
  if w.denied name then
    (none, { w with fileCalls := w.fileCalls ++ [FileCall.openFile name false] })
  else
    (some ⟨w.nextHandle⟩,
      { w with
        files := setFile w.files name ((w.files name).getD "")
        handles := (w.nextHandle, name) :: w.handles
        nextHandle := w.nextHandle + 1
        fileCalls := w.fileCalls ++ [FileCall.openFile name true] })

/-- The call `f.Write(data)` on a file opened with `O_APPEND`: on an open file
object the data goes to the end of the file; on a closed one the call fails
with `os.ErrClosed` and writes nothing.  The result says whether it succeeded. -/
def OsFile.Write (f : OsFile) (data : String) (w : World) : Bool × World :=
  match w.handles.lookup f.id with
  | some name =>
    (true, { w with
      files := setFile w.files name ((w.files name).getD "" ++ data)
      fileCalls := w.fileCalls ++ [FileCall.write f data true] })
  | none => (false, { w with fileCalls := w.fileCalls ++ [FileCall.write f data false] })

/-- The call `f.Close()`: an open file object is released; on a closed one the
call fails with `os.ErrClosed`. -/
def OsFile.Close (f : OsFile) (w : World) : Bool × World :=
  match w.handles.lookup f.id with
  | some _ =>
    (true, { w with
      handles := w.handles.filter (fun h => h.1 ≠ f.id)
      fileCalls := w.fileCalls ++ [FileCall.close f true] })
  | none => (false, { w with fileCalls := w.fileCalls ++ [FileCall.close f false] })

/-- The call `log.New(out, pfx, flag)`. -/
def logNew (out : OsFile) (pfx : String) (flag : Nat) : StdLogger :=
  { out := out, pfx := pfx, flag := flag }

/-- The method `(*log.Logger).Output` on a text `s`: reads the clock, builds
header and text in one buffer, ends it with a newline if `s` does not, and
hands the buffer to the destination in a single `Write`. -/
def StdLogger.Output (lg : StdLogger) (s : String) (w : World) : Bool × World :=
  let now := timeNow w
  let buf := formatHeader lg.pfx lg.flag now.1 ++ s
  let buf := if s.data.getLast? = some (Char.ofNat 10) then buf else buf ++ "\n"
  lg.out.Write buf now.2

/-- The method `(*log.Logger).Println(v)` for one string: `Output` of `v` and a
newline; the error `Output` returns is dropped. -/
def StdLogger.Println (lg : StdLogger) (v : String) (w : World) : World :=
  (lg.Output (v ++ "\n") w).2

/-! ## The package functions (`logger.go` lines 52-163) -/

/-- Source `initialize`: sets up the default logger. -/
def initLogger (level : LogLevel) (logFilePath : String) (w : World) : Except Failure World :=
  let w1 := { w with defaultLogger := some { logLevel := level, logFile := none, fileWriter := none } }
  if logFilePath ≠ "" then
    match osOpenFile logFilePath w1 with
    | (none, _) => Except.error Failure.fatalExit
    | (some f, w2) =>
      Except.ok { w2 with
        defaultLogger := some
          { logLevel := level, logFile := some f, fileWriter := some (logNew f "" LstdFlags) } }
  else Except.ok w1

/-- Setup configures the default logger settings: `once.Do` runs `initialize`
if the guard has not run, and marks the guard as run when it returns. -/
def Setup (level : LogLevel) (logFilePath : String) (w : World) : Except Failure World :=
  if w.onceDone then Except.ok w
  else
    match initLogger level logFilePath w with
    | Except.ok w1 => Except.ok { w1 with onceDone := true }
    | Except.error e => Except.error e

/-- Method `log`: outputs messages using the default logger.  The receiver is
a pointer; reading its field `logLevel` panics when it is nil.  The template
`"%s[%s] %s%s: %s%s"` with six strings is the concatenation below. -/
def Logger.log (l : Option Logger) (module msg : String) (level : LogLevel) (w : World) :
    Except Failure World :=
  match l with
  | none => Except.error Failure.nilDereference
  | some self =>
    if level < self.logLevel then Except.ok w
    else
      let now := timeNow w
      let timeStamp := formatRFC3339 now.1
      let levelColor := levelColors level
      let resetColor := consoleColors "reset"
      let logMessage :=
        levelColor ++ "[" ++ module ++ "] " ++ timeStamp ++ resetColor ++ ": " ++ msg ++ resetColor
      let w1 := fmtPrintln logMessage now.2
      match self.fileWriter with
      | some fw => Except.ok (fw.Println logMessage w1)
      | none => Except.ok w1

/-- Method `logf`: outputs formatted messages using the default logger.  The
call `fmt.Sprintf(format, a...)` of line 101 comes after the level check and
the clock reading; when it panics the panic reaches the caller. -/
def Logger.logf {Arg : Type} (sprintf : String → List Arg → Option String) (l : Option Logger)
    (module : String) (level : LogLevel) (format : String) (a : List Arg) (w : World) :
    Except Failure World :=
  match l with
  | none => Except.error Failure.nilDereference
  | some self =>
    if level < self.logLevel then Except.ok w
    else
      let now := timeNow w
      let timeStamp := formatRFC3339 now.1
      let levelColor := levelColors level
      let resetColor := consoleColors "reset"
      match sprintf format a with
      | none => Except.error Failure.formatPanic
      | some msg =>
        let logMessage :=
          levelColor ++ "[" ++ module ++ "] " ++ timeStamp ++ resetColor ++ ": " ++ msg ++ resetColor
        let w1 := fmtPrintln logMessage now.2
        match self.fileWriter with
        | some fw => Except.ok (fw.Println logMessage w1)
        | none => Except.ok w1

/-- Info logs an information message using the default logger. -/
def Info (module msg : String) (w : World) : Except Failure World :=
  Logger.log w.defaultLogger module msg INFO w

/-- Warn logs a warning message using the default logger. -/
def Warn (module msg : String) (w : World) : Except Failure World :=
  Logger.log w.defaultLogger module msg WARN w

/-- Error logs an error message using the default logger. -/
def Error (module msg : String) (w : World) : Except Failure World :=
  Logger.log w.defaultLogger module msg ERROR w

/-- Debug logs a debug message using the default logger. -/
def Debug (module msg : String) (w : World) : Except Failure World :=
  Logger.log w.defaultLogger module msg DEBUG w

/-- Infof logs an information message with format. -/
def Infof {Arg : Type} (sprintf : String → List Arg → Option String) (module format : String)
    (a : List Arg) (w : World) : Except Failure World :=
  Logger.logf sprintf w.defaultLogger module INFO format a w

/-- Warnf logs a warning message with format. -/
def Warnf {Arg : Type} (sprintf : String → List Arg → Option String) (module format : String)
    (a : List Arg) (w : World) : Except Failure World :=
  Logger.logf sprintf w.defaultLogger module WARN format a w

/-- Errorf logs an error message with format. -/
def Errorf {Arg : Type} (sprintf : String → List Arg → Option String) (module format : String)
    (a : List Arg) (w : World) : Except Failure World :=
  Logger.logf sprintf w.defaultLogger module ERROR format a w

/-- Debugf logs a debug message with format. -/
def Debugf {Arg : Type} (sprintf : String → List Arg → Option String) (module format : String)
    (a : List Arg) (w : World) : Except Failure World :=
  Logger.logf sprintf w.defaultLogger module DEBUG format a w

/-- Close closes the default logger, releasing any resources.  Reading
`defaultLogger.logFile` panics when `defaultLogger` is nil; the error
`logFile.Close()` returns is dropped. -/
def Close (w : World) : Except Failure World :=
  match w.defaultLogger with
  | none => Except.error Failure.nilDereference
  | some l =>
    match l.logFile with
    | some f => Except.ok (f.Close w).2
    | none => Except.ok w

/-- SetLogLevel sets the log level for the default logger. -/
def SetLogLevel (level : LogLevel) (w : World) : Except Failure World :=
  match w.defaultLogger with
  | none => Except.error Failure.nilDereference
  | some l => Except.ok { w with defaultLogger := some { l with logLevel := level } }

/-! ## The public interface as data -/

/-- A call of one of the eight emission entry points, with its arguments. -/
inductive Call (Arg : Type) where
  | debug (module msg : String)
  | info (module msg : String)
  | warn (module msg : String)
  | error (module msg : String)
  | debugf (module format : String) (a : List Arg)
  | infof (module format : String) (a : List Arg)
  | warnf (module format : String) (a : List Arg)
  | errorf (module format : String) (a : List Arg)

/-- Running a call is calling the entry point of that name. -/
def Call.run {Arg : Type} (sprintf : String → List Arg → Option String) :
    Call Arg → World → Except Failure World
  | Call.debug m s, w => Debug m s w
  | Call.info m s, w => Info m s w
  | Call.warn m s, w => Warn m s w
  | Call.error m s, w => Error m s w
  | Call.debugf m f a, w => Debugf sprintf m f a w
  | Call.infof m f a, w => Infof sprintf m f a w
  | Call.warnf m f a, w => Warnf sprintf m f a w
  | Call.errorf m f a, w => Errorf sprintf m f a w

/-- The severity an entry point is named after. -/
def Call.severity {Arg : Type} : Call Arg → LogLevel
  | Call.debug _ _ => DEBUG
  | Call.info _ _ => INFO
  | Call.warn _ _ => WARN
  | Call.error _ _ => ERROR
  | Call.debugf _ _ _ => DEBUG
  | Call.infof _ _ _ => INFO
  | Call.warnf _ _ _ => WARN
  | Call.errorf _ _ _ => ERROR

/-- The colour the specification gives the entry point: dim gray for Debug,
cyan for Info, yellow for Warn, red for Error. -/
def Call.color {Arg : Type} : Call Arg → String
  | Call.debug _ _ => "\x1b[90m"
  | Call.info _ _ => "\x1b[36m"
  | Call.warn _ _ => "\x1b[33m"
  | Call.error _ _ => "\x1b[31m"
  | Call.debugf _ _ _ => "\x1b[90m"
  | Call.infof _ _ _ => "\x1b[36m"
  | Call.warnf _ _ _ => "\x1b[33m"
  | Call.errorf _ _ _ => "\x1b[31m"

/-- The module label passed to the call. -/
def Call.label {Arg : Type} : Call Arg → String
  | Call.debug m _ => m
  | Call.info m _ => m
  | Call.warn m _ => m
  | Call.error m _ => m
  | Call.debugf m _ _ => m
  | Call.infof m _ _ => m
  | Call.warnf m _ _ => m
  | Call.errorf m _ _ => m

/-- The message body of the call: the message of a plain form, the expansion
of template and arguments of an f-form, which is `none` when `fmt.Sprintf`
panics on them. -/
def Call.body {Arg : Type} (sprintf : String → List Arg → Option String) :
    Call Arg → Option String
  | Call.debug _ s => some s
  | Call.info _ s => some s
  | Call.warn _ s => some s
  | Call.error _ s => some s
  | Call.debugf _ f a => sprintf f a
  | Call.infof _ f a => sprintf f a
  | Call.warnf _ f a => sprintf f a
  | Call.errorf _ f a => sprintf f a

/-- The record of the specification: colour, bracketed module label, space,
timestamp, reset, colon and space, message, reset. -/
def record (color label ts body : String) : String :=
  color ++ "[" ++ label ++ "] " ++ ts ++ "\x1b[0m" ++ ": " ++ body ++ "\x1b[0m"

/-- An operation of the public interface. -/
inductive PublicOp (Arg : Type) where
  | setup (level : LogLevel) (logFilePath : String)
  | emit (c : Call Arg)
  | setLogLevel (level : LogLevel)
  | close

/-- Running an operation is calling the package function of that name. -/
def PublicOp.run {Arg : Type} (sprintf : String → List Arg → Option String) :
    PublicOp Arg → World → Except Failure World
  | PublicOp.setup level path, w => Setup level path w
  | PublicOp.emit c, w => c.run sprintf w
  | PublicOp.setLogLevel level, w => SetLogLevel level w
  | PublicOp.close, w => Close w

/-- Running operations one after the other; the first that does not return
ends the run. -/
def runOps {Arg : Type} (sprintf : String → List Arg → Option String) :
    List (PublicOp Arg) → World → Except Failure World
  | [], w => Except.ok w
  | op :: ops, w =>
    match op.run sprintf w with
    | Except.ok w1 => runOps sprintf ops w1
    | Except.error e => Except.error e

/-! ## A concrete process, for evaluation -/

/-- A clock that always reads 10 November 2009, 23:00:00 UTC. -/
def demoClock : Nat → Time :=
  fun _ => { year := 2009, month := 11, day := 10, hour := 23, minute := 0, second := 0, offset := 0 }

/-- A process at start with an empty file system in which every path can be
opened. -/
def demoStart : World := World.start (fun _ => none) (fun _ => false) demoClock

/-- Arguments for evaluation: a text, or a value whose `String` method panics
with a value whose own printing panics again. -/
inductive DemoArg where
  | text (s : String)
  | faulty
deriving DecidableEq

/-- A stand-in for `fmt.Sprintf` on `DemoArg`: the template followed by the
texts, and a panic as soon as a faulty argument is met. -/
def demoSprintf (format : String) : List DemoArg → Option String
  | [] => some format
  | DemoArg.text s :: rest => demoSprintf (format ++ s) rest
  | DemoArg.faulty :: _ => none

/-- The process after `Setup(INFO, "")` at start: console only. -/
def demoConsole : World :=
  { demoStart with defaultLogger := some ⟨INFO, none, none⟩, onceDone := true }

/-- The process after `Setup(DEBUG, "out.log")` at start: the file created
empty and open as file object 0. -/
def demoFile : World :=
  { demoStart with
    defaultLogger := some ⟨DEBUG, some ⟨0⟩, some (logNew ⟨0⟩ "" LstdFlags)⟩
    onceDone := true
    files := setFile (fun _ => none) "out.log" ""
    handles := [(0, "out.log")]
    nextHandle := 1
    fileCalls := [FileCall.openFile "out.log" true] }

/-- The process after `Setup(DEBUG, "out.log")` and then `Close()`. -/
def demoClosed : World :=
  { demoFile with
    handles := []
    fileCalls := [FileCall.openFile "out.log" true, FileCall.close ⟨0⟩ true] }

/-! ## Proof-side abbreviation -/

/-- The state after an accepted emission whose record is `line`: one clock
reading taken, the record printed, and handed to the file writer if any.  It
names lines 84-89 (and 105-110) of the source for the lemmas below. -/
def afterRecord (l : Logger) (line : String) (w : World) : World :=
  match l.fileWriter with
  | some fw => fw.Println line (fmtPrintln line (timeNow w).2)
  | none => fmtPrintln line (timeNow w).2

/-- Invariant of every run from process start: once the guard has run there is
a logger. -/
def GuardInv (w : World) : Prop := w.onceDone = true → ∃ l, w.defaultLogger = some l

/-- The logger of `w` was set up with file `f`, and `f` is closed. -/
def ClosedSink (f : OsFile) (w : World) : Prop :=
  w.onceDone = true ∧ w.handles.lookup f.id = none ∧
    ∃ l, w.defaultLogger = some l ∧ l.logFile = some f ∧
      l.fileWriter = some (logNew f "" LstdFlags)

/-! ## The delimiter between module label and message -/

/-- The label contains the text that closes a label in a record: `] `, the
RFC3339 rendering of some clock reading, the reset escape, `: `. -/
def EmbedsDelimiter (label : String) : Prop :=
  ∃ (pre post : String) (t : Time),
    label = pre ++ "] " ++ formatRFC3339 t ++ "\x1b[0m" ++ ": " ++ post

/-! ## Sanity checks of the standard-library renderings -/

theorem itoa_year : itoa 2009 4 = "2009".data := by decide

theorem itoa_pads : itoa 7 2 = "07".data := by decide

theorem itoa_wide : itoa 12345 4 = "12345".data := by decide

theorem formatRFC3339_utc : formatRFC3339 (demoClock 0) = "2009-11-10T23:00:00Z" := by decide

theorem formatRFC3339_east :
    formatRFC3339 (Time.mk 2024 2 29 9 5 7 19800) = "2024-02-29T09:05:07+05:30" := by decide

theorem formatRFC3339_west :
    formatRFC3339 (Time.mk 2024 2 29 9 5 7 (-12600)) = "2024-02-29T09:05:07-03:30" := by decide

theorem formatHeader_std : formatHeader "" LstdFlags (demoClock 0) = "2009/11/10 23:00:00 " := by
  decide

theorem demoConsole_setup : Setup INFO "" demoStart = Except.ok demoConsole := rfl

theorem demoFile_setup : Setup DEBUG "out.log" demoStart = Except.ok demoFile := rfl

theorem demoClosed_close : Close demoFile = Except.ok demoClosed := rfl

/-! ## Shared lemmas: what an emission does -/

theorem levelColors_severity {Arg : Type} (c : Call Arg) : levelColors c.severity = c.color := by
  cases c <;> rfl

theorem log_some (l : Logger) (m b : String) (S : LogLevel) (w : World) :
    Logger.log (some l) m b S w =
      if S < l.logLevel then Except.ok w
      else Except.ok
        (afterRecord l (record (levelColors S) m (formatRFC3339 (w.clock w.ticks)) b) w) := by
  unfold Logger.log afterRecord record consoleColors
  by_cases hlt : S < l.logLevel
  · simp [hlt]
  · cases hfw : l.fileWriter <;> simp [hlt, timeNow, hfw]

theorem logf_some {Arg : Type} (sprintf : String → List Arg → Option String) (l : Logger)
    (m : String) (S : LogLevel) (f : String) (a : List Arg) (w : World) :
    Logger.logf sprintf (some l) m S f a w =
      if S < l.logLevel then Except.ok w
      else
        match sprintf f a with
        | none => Except.error Failure.formatPanic
        | some b => Except.ok
          (afterRecord l (record (levelColors S) m (formatRFC3339 (w.clock w.ticks)) b) w) := by
  unfold Logger.logf afterRecord record consoleColors
  by_cases hlt : S < l.logLevel
  · simp [hlt]
  · cases hb : sprintf f a <;> cases hfw : l.fileWriter <;> simp [hlt, timeNow, hfw]

theorem run_eq {Arg : Type} (sprintf : String → List Arg → Option String) (c : Call Arg)
    (w : World) (l : Logger) (h : w.defaultLogger = some l) :
    c.run sprintf w =
      if c.severity < l.logLevel then Except.ok w
      else
        match c.body sprintf with
        | none => Except.error Failure.formatPanic
        | some b => Except.ok
          (afterRecord l (record c.color c.label (formatRFC3339 (w.clock w.ticks)) b) w) := by
  rw [← levelColors_severity]
  cases c <;>
    simp only [Call.run, Debug, Info, Warn, Error, Debugf, Infof, Warnf, Errorf, h, log_some,
      logf_some, Call.severity, Call.label, Call.body]

theorem run_some {Arg : Type} (sprintf : String → List Arg → Option String) (c : Call Arg)
    (w : World) (l : Logger) (b : String) (h : w.defaultLogger = some l)
    (hb : c.body sprintf = some b) :
    c.run sprintf w =
      if c.severity < l.logLevel then Except.ok w
      else Except.ok
        (afterRecord l (record c.color c.label (formatRFC3339 (w.clock w.ticks)) b) w) := by
  rw [run_eq sprintf c w l h, hb]

theorem getLast_append_newline (v : String) :
    (v ++ "\n").data.getLast? = some (Char.ofNat 10) := by
  have h : ("\n" : String).data = [Char.ofNat 10] := by decide
  rw [String.data_append, h]
  simp

theorem Println_eq (fw : StdLogger) (v : String) (w : World) :
    fw.Println v w =
      (fw.out.Write (formatHeader fw.pfx fw.flag (w.clock w.ticks) ++ (v ++ "\n"))
        (timeNow w).2).2 := by
  simp only [StdLogger.Println, StdLogger.Output, getLast_append_newline, if_true, timeNow]

theorem afterRecord_stdout (l : Logger) (line : String) (w : World) :
    (afterRecord l line w).stdout = w.stdout ++ line ++ "\n" := by
  unfold afterRecord
  cases l.fileWriter with
  | none => rfl
  | some fw =>
    simp only [StdLogger.Println, StdLogger.Output, OsFile.Write]
    split <;> rfl

theorem afterRecord_none (l : Logger) (line : String) (w : World) (h : l.fileWriter = none) :
    afterRecord l line w = { w with ticks := w.ticks + 1, stdout := w.stdout ++ line ++ "\n" } := by
  simp [afterRecord, h, fmtPrintln, timeNow]

theorem afterRecord_open (l : Logger) (line : String) (w : World) (fw : StdLogger) (path : String)
    (h : l.fileWriter = some fw) (hopen : w.handles.lookup fw.out.id = some path) :
    afterRecord l line w =
      { w with
        ticks := w.ticks + 2
        stdout := w.stdout ++ line ++ "\n"
        files := setFile w.files path ((w.files path).getD "" ++
          (formatHeader fw.pfx fw.flag (w.clock (w.ticks + 1)) ++ (line ++ "\n")))
        fileCalls := w.fileCalls ++ [FileCall.write fw.out
          (formatHeader fw.pfx fw.flag (w.clock (w.ticks + 1)) ++ (line ++ "\n")) true] } := by
  simp [afterRecord, h, Println_eq, fmtPrintln, timeNow, OsFile.Write, hopen]

theorem afterRecord_closed (l : Logger) (line : String) (w : World) (fw : StdLogger)
    (h : l.fileWriter = some fw) (hclosed : w.handles.lookup fw.out.id = none) :
    afterRecord l line w =
      { w with
        ticks := w.ticks + 2
        stdout := w.stdout ++ line ++ "\n"
        fileCalls := w.fileCalls ++ [FileCall.write fw.out
          (formatHeader fw.pfx fw.flag (w.clock (w.ticks + 1)) ++ (line ++ "\n")) false] } := by
  simp [afterRecord, h, Println_eq, fmtPrintln, timeNow, OsFile.Write, hclosed]

theorem run_of_lt {Arg : Type} (sprintf : String → List Arg → Option String) (c : Call Arg)
    (w : World) (l : Logger) (h : w.defaultLogger = some l) (hlt : c.severity < l.logLevel) :
    c.run sprintf w = Except.ok w := by
  rw [run_eq sprintf c w l h, if_pos hlt]

theorem run_of_le {Arg : Type} (sprintf : String → List Arg → Option String) (c : Call Arg)
    (w : World) (l : Logger) (b : String) (h : w.defaultLogger = some l)
    (hb : c.body sprintf = some b) (hle : l.logLevel ≤ c.severity) :
    c.run sprintf w = Except.ok
      (afterRecord l (record c.color c.label (formatRFC3339 (w.clock w.ticks)) b) w) := by
  rw [run_some sprintf c w l b h hb, if_neg (not_lt.mpr hle)]

/-- Every call has a message body when `fmt.Sprintf` returns on every template
and arguments; the statements below that ask for a message body then hold for
every call. -/
theorem body_of_total {Arg : Type} (g : String → List Arg → String) (c : Call Arg) :
    ∃ b, c.body (fun f a => some (g f a)) = some b := by
  cases c <;> exact ⟨_, rfl⟩

/-- An accepted f-form whose `fmt.Sprintf` panics panics to its caller. -/
theorem run_of_panic {Arg : Type} (sprintf : String → List Arg → Option String) (c : Call Arg)
    (w : World) (l : Logger) (h : w.defaultLogger = some l) (hb : c.body sprintf = none)
    (hle : l.logLevel ≤ c.severity) :
    c.run sprintf w = Except.error Failure.formatPanic := by
  rw [run_eq sprintf c w l h, if_neg (not_lt.mpr hle), hb]

/-- What `Setup` establishes on a process whose guard has not run, for a path
that can be opened: the logger of `initialize` with a new open file object on
`path`; the file exists with the content it had (empty if it was absent) and no
other file changes. -/
theorem Setup_opens (level : LogLevel) (path : String) (w : World) (honce : w.onceDone = false)
    (hpath : path ≠ "") (hok : w.denied path = false) :
    ∃ w1, Setup level path w = Except.ok w1 ∧
      w1.defaultLogger = some ⟨level, some ⟨w.nextHandle⟩,
        some (logNew ⟨w.nextHandle⟩ "" LstdFlags)⟩ ∧
      w1.handles.lookup w.nextHandle = some path ∧
      w1.files path = some ((w.files path).getD "") ∧
      (∀ q, q ≠ path → w1.files q = w.files q) ∧ w1.stdout = w.stdout := by
  have h : Setup level path w = Except.ok
      { w with
        defaultLogger := some ⟨level, some ⟨w.nextHandle⟩,
          some (logNew ⟨w.nextHandle⟩ "" LstdFlags)⟩
        onceDone := true
        files := setFile w.files path ((w.files path).getD "")
        handles := (w.nextHandle, path) :: w.handles
        nextHandle := w.nextHandle + 1
        fileCalls := w.fileCalls ++ [FileCall.openFile path true] } := by
    simp [Setup, honce, initLogger, hpath, osOpenFile, hok]
  refine ⟨_, h, rfl, ?_, ?_, ?_, rfl⟩
  · simp [List.lookup]
  · simp [setFile]
  · intro q hq
    simp [setFile, hq]

/-- On a path that cannot be opened, `Setup` on a process whose guard has not
run ends the process through `log.Fatalf`. -/
theorem Setup_fatal (level : LogLevel) (path : String) (w : World) (honce : w.onceDone = false)
    (hpath : path ≠ "") (hden : w.denied path = true) :
    Setup level path w = Except.error Failure.fatalExit := by
  simp [Setup, honce, initLogger, hpath, osOpenFile, hden]

/-! ## C1: threshold filtering -/

/-- C2: an accepted call (`T ≤ S`) with message body `b` returns, and what it
adds to the console is exactly colour of the entry point, `[`, module label,
`] `, the RFC3339 rendering of the clock reading, reset, `: `, `b`, reset,
newline; the body of a plain form is its message, the body of an f-form is
what `fmt.Sprintf` returns for template and arguments. -/
theorem console_record {Arg : Type} (sprintf : String → List Arg → Option String) (c : Call Arg)
    (w : World) (l : Logger) (b : String) (h : w.defaultLogger = some l)
    (hb : c.body sprintf = some b) (hacc : l.logLevel ≤ c.severity) :
    ∃ w1, c.run sprintf w = Except.ok w1 ∧
      w1.stdout = w.stdout ++
        (c.color ++ "[" ++ c.label ++ "] " ++ formatRFC3339 (w.clock w.ticks) ++ "\x1b[0m" ++ ": " ++
          b ++ "\x1b[0m") ++ "\n" := by
  rw [run_of_le sprintf c w l b h hb hacc]
  exact ⟨_, rfl, afterRecord_stdout _ _ _⟩

/-- Witness of C2: `Infof("svc", ...)` on the console-only process at level
INFO prints the cyan record. -/
theorem console_record_witness :
    ∃ w1, Infof demoSprintf "svc" "hello " [DemoArg.text "world"] demoConsole = Except.ok w1 ∧
      w1.stdout = "\x1b[36m[svc] 2009-11-10T23:00:00Z\x1b[0m: hello world\x1b[0m\n" :=
  console_record demoSprintf (Call.infof "svc" "hello " [DemoArg.text "world"]) demoConsole
    ⟨INFO, none, none⟩ "hello world" rfl (by decide) (by decide)

/-! ## C3: the file record -/

/-- Counterexample to C3 as stated: after `Setup(DEBUG, "out.log")` at start,
`Info("svc", "hello")` prints one line on the console and appends to the file
that line behind the date-time header of the file writer; the file content is
not the console line. -/
theorem file_line_has_header :
    Setup DEBUG "out.log" demoStart = Except.ok demoFile ∧
      ∃ w2, Info "svc" "hello" demoFile = Except.ok w2 ∧
        w2.stdout = "\x1b[36m[svc] 2009-11-10T23:00:00Z\x1b[0m: hello\x1b[0m\n" ∧
        w2.files "out.log" =
          some "2009/11/10 23:00:00 \x1b[36m[svc] 2009-11-10T23:00:00Z\x1b[0m: hello\x1b[0m\n" ∧
        w2.files "out.log" ≠ some w2.stdout :=
  ⟨rfl, _, rfl, rfl, rfl, by decide⟩

/-- C3, amended: an accepted call with message body `b` on a logger whose file writer is the one
`initialize` builds (`log.New(file, "", log.LstdFlags)`) and whose file object
is open on `path` makes exactly one successful write; the file keeps its
previous content `old` as a prefix, and what is appended is the writer's
header for the clock reading taken at the write, followed by the very line put
on the console (the record of C2, colour escapes included) and a newline; no
other file changes. -/
theorem file_record {Arg : Type} (sprintf : String → List Arg → Option String) (c : Call Arg)
    (w : World) (l : Logger) (f : OsFile) (path old b : String)
    (h : w.defaultLogger = some l) (hfw : l.fileWriter = some (logNew f "" LstdFlags))
    (hopen : w.handles.lookup f.id = some path) (hold : w.files path = some old)
    (hb : c.body sprintf = some b) (hacc : l.logLevel ≤ c.severity) :
    ∃ w1 line, c.run sprintf w = Except.ok w1 ∧
      line = record c.color c.label (formatRFC3339 (w.clock w.ticks)) b ∧
      w1.stdout = w.stdout ++ line ++ "\n" ∧
      w1.files path =
        some (old ++ (formatHeader "" LstdFlags (w.clock (w.ticks + 1)) ++ (line ++ "\n"))) ∧
      (∀ q, q ≠ path → w1.files q = w.files q) ∧
      w1.fileCalls = w.fileCalls ++
        [FileCall.write f (formatHeader "" LstdFlags (w.clock (w.ticks + 1)) ++ (line ++ "\n")) true] := by
  rw [run_of_le sprintf c w l b h hb hacc]
  refine ⟨_, _, rfl, rfl, afterRecord_stdout _ _ _, ?_, ?_, ?_⟩
  · rw [afterRecord_open l _ w _ path hfw hopen]
    simp [setFile, hold, logNew]
  · intro q hq
    rw [afterRecord_open l _ w _ path hfw hopen]
    simp [setFile, hq]
  · rw [afterRecord_open l _ w _ path hfw hopen]
    simp [logNew]

/-- Witness of C3, amended: `Info("svc", "hello")` on the process set up with
`out.log`. -/
theorem file_record_witness :
    ∃ w1, Info "svc" "hello" demoFile = Except.ok w1 ∧
      w1.stdout = "\x1b[36m[svc] 2009-11-10T23:00:00Z\x1b[0m: hello\x1b[0m\n" ∧
      w1.files "out.log" =
        some "2009/11/10 23:00:00 \x1b[36m[svc] 2009-11-10T23:00:00Z\x1b[0m: hello\x1b[0m\n" := by
  obtain ⟨w1, line, h1, h2, h3, h4, _⟩ :=
    file_record demoSprintf (Call.info "svc" "hello") demoFile
      ⟨DEBUG, some ⟨0⟩, some (logNew ⟨0⟩ "" LstdFlags)⟩ ⟨0⟩ "out.log" "" "hello" rfl rfl rfl rfl
      rfl (by decide)
  subst h2
  exact ⟨w1, h1, h3.trans (by decide), h4.trans (by decide)⟩

/-! ## C9: Close without a file sink -/

/-- Counterexample to C9 as stated: at process start no file sink exists, and
`Close()` panics on the nil `defaultLogger`. -/
theorem close_before_setup : Close demoStart = Except.error Failure.nilDereference := rfl

/-- C9, amended: when the logger exists and has no file, `Close()` returns
with the whole state unchanged. -/
theorem close_without_sink (w : World) (l : Logger) (h : w.defaultLogger = some l)
    (hf : l.logFile = none) : Close w = Except.ok w := by
  simp [Close, h, hf]

/-- Witness of C9, amended: `Close()` after `Setup(INFO, "")`. -/
theorem close_without_sink_witness :
    Setup INFO "" demoStart = Except.ok demoConsole ∧ Close demoConsole = Except.ok demoConsole :=
  ⟨rfl, close_without_sink demoConsole ⟨INFO, none, none⟩ rfl rfl⟩

/-! ## C7: level reconfiguration -/

theorem afterRecord_frame (l : Logger) (line : String) (w : World) :
    (afterRecord l line w).defaultLogger = w.defaultLogger ∧
      (afterRecord l line w).onceDone = w.onceDone ∧
      (afterRecord l line w).handles = w.handles := by
  unfold afterRecord
  cases l.fileWriter with
  | none => exact ⟨rfl, rfl, rfl⟩
  | some fw =>
    simp only [StdLogger.Println, StdLogger.Output, OsFile.Write]
    split <;> exact ⟨rfl, rfl, rfl⟩

theorem Setup_cases (level : LogLevel) (path : String) (w w1 : World)
    (h : Setup level path w = Except.ok w1) :
    (w.onceDone = true ∧ w1 = w) ∨
      (w.onceDone = false ∧ w1.onceDone = true ∧ ∃ l, w1.defaultLogger = some l) := by
  unfold Setup at h
  by_cases hd : w.onceDone = true
  · simp [hd] at h
    exact Or.inl ⟨hd, h.symm⟩
  · simp [hd] at h
    right
    refine ⟨by simpa using hd, ?_⟩
    split at h
    · rename_i w2 hinit
      cases h
      refine ⟨rfl, ?_⟩
      unfold initLogger at hinit
      by_cases hp : path = ""
      · simp [hp] at hinit
        exact ⟨_, by rw [← hinit]⟩
      · simp only [ne_eq, hp, not_false_eq_true, if_true] at hinit
        split at hinit
        · cases hinit
        · cases hinit
          exact ⟨_, rfl⟩
    · cases h

theorem Close_frame (w w1 : World) (h : Close w = Except.ok w1) :
    w1.defaultLogger = w.defaultLogger ∧ w1.onceDone = w.onceDone ∧ w1.files = w.files ∧
      w1.stdout = w.stdout ∧ w1.clock = w.clock ∧ w1.ticks = w.ticks := by
  unfold Close at h
  split at h
  · cases h
  · split at h
    · cases h
      simp only [OsFile.Close]
      split <;> exact ⟨rfl, rfl, rfl, rfl, rfl, rfl⟩
    · cases h
      exact ⟨rfl, rfl, rfl, rfl, rfl, rfl⟩

theorem SetLogLevel_cases (level : LogLevel) (w w1 : World)
    (h : SetLogLevel level w = Except.ok w1) :
    ∃ l, w.defaultLogger = some l ∧
      w1 = { w with defaultLogger := some { l with logLevel := level } } := by
  unfold SetLogLevel at h
  split at h
  · cases h
  · rename_i l hl
    cases h
    exact ⟨l, hl, rfl⟩

theorem run_cases {Arg : Type} (sprintf : String → List Arg → Option String) (c : Call Arg)
    (w w1 : World) (h : c.run sprintf w = Except.ok w1) :
    ∃ l, w.defaultLogger = some l ∧ (w1 = w ∨ ∃ line, w1 = afterRecord l line w) := by
  cases hl : w.defaultLogger with
  | none =>
    exfalso
    cases c <;>
      simp [Call.run, Debug, Info, Warn, Error, Debugf, Infof, Warnf, Errorf, hl, Logger.log,
        Logger.logf] at h
  | some l =>
    refine ⟨l, rfl, ?_⟩
    rw [run_eq sprintf c w l hl] at h
    split at h
    · cases h; exact Or.inl rfl
    · split at h
      · cases h
      · cases h; exact Or.inr ⟨_, rfl⟩

theorem op_keeps_logger {Arg : Type} (sprintf : String → List Arg → Option String) (op : PublicOp Arg)
    (w w1 : World) (hinv : GuardInv w) (h : op.run sprintf w = Except.ok w1) :
    GuardInv w1 ∧ ((∃ l, w.defaultLogger = some l) → ∃ l, w1.defaultLogger = some l) ∧
      ((∃ level path, op = PublicOp.setup level path) → ∃ l, w1.defaultLogger = some l) := by
  cases op with
  | setup level path =>
    rcases Setup_cases level path w w1 h with ⟨hd, rfl⟩ | ⟨_, _, hl⟩
    · exact ⟨hinv, id, fun _ => hinv hd⟩
    · exact ⟨fun _ => hl, fun _ => hl, fun _ => hl⟩
  | emit c =>
    obtain ⟨l, hl, hw1⟩ := run_cases sprintf c w w1 h
    have hsame : w1.defaultLogger = w.defaultLogger ∧ w1.onceDone = w.onceDone := by
      rcases hw1 with rfl | ⟨line, rfl⟩
      · exact ⟨rfl, rfl⟩
      · exact ⟨(afterRecord_frame l line w).1, (afterRecord_frame l line w).2.1⟩
    refine ⟨fun _ => ⟨l, by rw [hsame.1, hl]⟩, fun _ => ⟨l, by rw [hsame.1, hl]⟩, ?_⟩
    rintro ⟨_, _, hop⟩
    cases hop
  | setLogLevel level =>
    obtain ⟨l, _, rfl⟩ := SetLogLevel_cases level w w1 h
    refine ⟨fun _ => ⟨_, rfl⟩, fun _ => ⟨_, rfl⟩, ?_⟩
    rintro ⟨_, _, hop⟩
    cases hop
  | close =>
    have hf := Close_frame w w1 h
    refine ⟨?_, ?_, ?_⟩
    · intro hd
      rw [hf.1]
      exact hinv (hf.2.1 ▸ hd)
    · intro hl
      rw [hf.1]
      exact hl
    · rintro ⟨_, _, hop⟩
      cases hop

theorem ops_keep_logger {Arg : Type} (sprintf : String → List Arg → Option String) :
    ∀ (ops : List (PublicOp Arg)) (w w1 : World), GuardInv w →
      runOps sprintf ops w = Except.ok w1 →
      ((∃ l, w.defaultLogger = some l) ∨ ∃ level path, PublicOp.setup level path ∈ ops) →
      ∃ l, w1.defaultLogger = some l
  | [], w, w1, _, h, hor => by
    cases h
    rcases hor with hl | ⟨_, _, hmem⟩
    · exact hl
    · cases hmem
  | op :: ops, w, w1, hinv, h, hor => by
    unfold runOps at h
    split at h
    · rename_i w2 hop
      obtain ⟨hinv2, hkeep, hset⟩ := op_keeps_logger sprintf op w w2 hinv hop
      apply ops_keep_logger sprintf ops w2 w1 hinv2 h
      rcases hor with hl | ⟨level, path, hmem⟩
      · exact Or.inl (hkeep hl)
      · rcases List.mem_cons.mp hmem with heq | htail
        · exact Or.inl (hset ⟨level, path, heq.symm⟩)
        · exact Or.inr ⟨level, path, htail⟩
    · cases h

/-! ## C4: configuration runs at most once -/

theorem Setup_done (level : LogLevel) (path : String) (w w1 : World)
    (h : Setup level path w = Except.ok w1) : w1.onceDone = true := by
  rcases Setup_cases level path w w1 h with ⟨hd, rfl⟩ | ⟨_, hd, _⟩
  · exact hd
  · exact hd

theorem op_keeps_done {Arg : Type} (sprintf : String → List Arg → Option String)
    (op : PublicOp Arg) (w w1 : World) (hd : w.onceDone = true)
    (h : op.run sprintf w = Except.ok w1) : w1.onceDone = true := by
  cases op with
  | setup level path => exact Setup_done level path w w1 h
  | emit c =>
    obtain ⟨l, _, hw1⟩ := run_cases sprintf c w w1 h
    rcases hw1 with rfl | ⟨line, rfl⟩
    · exact hd
    · rw [(afterRecord_frame l line w).2.1]
      exact hd
  | setLogLevel level =>
    obtain ⟨l, _, rfl⟩ := SetLogLevel_cases level w w1 h
    exact hd
  | close =>
    rw [(Close_frame w w1 h).2.1]
    exact hd

theorem ops_keep_done {Arg : Type} (sprintf : String → List Arg → Option String) :
    ∀ (ops : List (PublicOp Arg)) (w w1 : World), w.onceDone = true →
      runOps sprintf ops w = Except.ok w1 → w1.onceDone = true
  | [], w, w1, hd, h => by
    cases h
    exact hd
  | op :: ops, w, w1, hd, h => by
    unfold runOps at h
    split at h
    · rename_i w2 hop
      exact ops_keep_done sprintf ops w2 w1 (op_keeps_done sprintf op w w2 hd hop) h
    · cases h

/-- C4: once a call `Setup(l1, p1)` has returned, a later `Setup(l2, p2)`,
whether it comes at once or after any run of public operations (emissions,
`SetLogLevel`, `Close`, further `Setup` calls), returns with the whole state
unchanged: same logger (level, file, writer), same files, same open file
objects, no further call on the file API. -/
theorem setup_once {Arg : Type} (sprintf : String → List Arg → Option String)
    (l1 l2 : LogLevel) (p1 p2 : String) (w w1 w2 : World) (ops : List (PublicOp Arg))
    (h : Setup l1 p1 w = Except.ok w1) (hops : runOps sprintf ops w1 = Except.ok w2) :
    Setup l2 p2 w1 = Except.ok w1 ∧ Setup l2 p2 w2 = Except.ok w2 := by
  have hd := Setup_done l1 p1 w w1 h
  have hd2 := ops_keep_done sprintf ops w1 w2 hd hops
  exact ⟨by simp [Setup, hd], by simp [Setup, hd2]⟩

/-- Witness of C4: after `Setup(DEBUG, "out.log")`, then an `Info` call,
`SetLogLevel(NONE)` and `Close()`, a second `Setup` with another level and path
changes nothing. -/
theorem setup_once_witness :
    Setup DEBUG "out.log" demoStart = Except.ok demoFile ∧
      ∃ w2, runOps demoSprintf
          [PublicOp.emit (Call.info "svc" "hello"), PublicOp.setLogLevel NONE, PublicOp.close]
          demoFile = Except.ok w2 ∧
        Setup ERROR "other.log" demoFile = Except.ok demoFile ∧
        Setup ERROR "other.log" w2 = Except.ok w2 :=
  ⟨rfl, _, rfl,
    setup_once demoSprintf DEBUG ERROR "out.log" "other.log" demoStart demoFile _
      [PublicOp.emit (Call.info "svc" "hello"), PublicOp.setLogLevel NONE, PublicOp.close]
      rfl rfl⟩

/-! ## C5: emission calls and panics -/

/-- Counterexample to C5 as stated: at process start, before any `Setup`,
`Info("mod", "x")` panics on the nil `defaultLogger`. -/
theorem info_before_setup : Info "mod" "x" demoStart = Except.error Failure.nilDereference := rfl

/-- C5, amended: in every state reached from process start by a run of public
operations that all returned and among which `Setup` was called (so also after
`Close`, and with threshold NONE), each of the four plain entry points returns,
for every module label and message; and each of the eight entry points returns
whenever its call has a message body (for an f-form: `fmt.Sprintf` returns for
template and arguments) or its severity is below the threshold. -/
theorem emission_returns {Arg : Type} (sprintf : String → List Arg → Option String)
    (files : String → Option String) (denied : String → Bool) (clock : Nat → Time)
    (ops : List (PublicOp Arg)) (w : World)
    (hrun : runOps sprintf ops (World.start files denied clock) = Except.ok w)
    (hsetup : ∃ level path, PublicOp.setup level path ∈ ops) :
    (∀ m s : String,
      (∃ w1, Debug m s w = Except.ok w1) ∧ (∃ w1, Info m s w = Except.ok w1) ∧
      (∃ w1, Warn m s w = Except.ok w1) ∧ (∃ w1, Error m s w = Except.ok w1)) ∧
    (∀ c : Call Arg,
      ((∃ b, c.body sprintf = some b) ∨
        ∃ l, w.defaultLogger = some l ∧ c.severity < l.logLevel) →
      ∃ w1, c.run sprintf w = Except.ok w1) := by
  have hinv : GuardInv (World.start files denied clock) := by
    intro hd
    cases hd
  obtain ⟨l, hl⟩ := ops_keep_logger sprintf ops _ w hinv hrun (Or.inr hsetup)
  have hbody : ∀ (c : Call Arg) (b : String), c.body sprintf = some b →
      ∃ w1, c.run sprintf w = Except.ok w1 := by
    intro c b hb
    rw [run_some sprintf c w l b hl hb]
    split
    · exact ⟨_, rfl⟩
    · exact ⟨_, rfl⟩
  refine ⟨fun m s => ⟨hbody (Call.debug m s) s rfl, hbody (Call.info m s) s rfl,
    hbody (Call.warn m s) s rfl, hbody (Call.error m s) s rfl⟩, ?_⟩
  rintro c (⟨b, hb⟩ | ⟨l2, hl2, hlt⟩)
  · exact hbody c b hb
  · exact ⟨w, run_of_lt sprintf c w l2 hl2 hlt⟩

/-- Witness of C5, amended: `Errorf` after `Setup(DEBUG, "out.log")` and
`Close()`. -/
theorem emission_returns_witness :
    ∃ w1, Errorf demoSprintf "mod" "%d" [DemoArg.text "x"] demoClosed = Except.ok w1 :=
  (emission_returns demoSprintf (fun _ => none) (fun _ => false) demoClock
    [PublicOp.setup DEBUG "out.log", PublicOp.close] demoClosed rfl
    ⟨DEBUG, "out.log", List.mem_cons_self _ _⟩).2 (Call.errorf "mod" "%d" [DemoArg.text "x"])
    (Or.inl ⟨"%dx", rfl⟩)

/-- The panic path of the f-forms in the model: on the console-only process,
`Errorf` with a faulty argument panics, while `Debugf` with the same argument
is filtered out before the template is expanded. -/
theorem errorf_faulty_argument :
    Errorf demoSprintf "mod" "%v" [DemoArg.faulty] demoConsole =
        Except.error Failure.formatPanic ∧
      Debugf demoSprintf "mod" "%v" [DemoArg.faulty] demoConsole = Except.ok demoConsole :=
  ⟨rfl, rfl⟩

/-! ## C6: emission after Close -/

theorem lookup_filter_ne (id : Nat) (hs : List (Nat × String)) :
    (hs.filter (fun h => h.1 ≠ id)).lookup id = none := by
  induction hs with
  | nil => rfl
  | cons kv hs ih =>
    by_cases hk : kv.1 = id
    · simpa [List.filter, hk] using ih
    · have hne : (id == kv.1) = false := by simpa using fun h => hk h.symm
      have hdec : decide (kv.1 ≠ id) = true := by simpa using hk
      rw [List.filter, hdec]
      show List.lookup id ((kv.1, kv.2) :: List.filter (fun h => decide (h.1 ≠ id)) hs) = none
      rw [List.lookup, hne]
      exact ih

theorem afterRecord_closed_files (l : Logger) (line : String) (w : World) (f : OsFile)
    (h : l.fileWriter = some (logNew f "" LstdFlags)) (hclosed : w.handles.lookup f.id = none) :
    (afterRecord l line w).files = w.files := by
  rw [afterRecord_closed l line w _ h hclosed]

theorem Close_closes (w wc : World) (l : Logger) (f : OsFile) (h : w.defaultLogger = some l)
    (hlf : l.logFile = some f) (hfw : l.fileWriter = some (logNew f "" LstdFlags))
    (honce : w.onceDone = true) (hclose : Close w = Except.ok wc) : ClosedSink f wc := by
  have hf := Close_frame w wc hclose
  refine ⟨hf.2.1 ▸ honce, ?_, l, hf.1 ▸ h, hlf, hfw⟩
  simp only [Close, h, hlf, OsFile.Close] at hclose
  split at hclose
  · cases hclose
    exact lookup_filter_ne f.id w.handles
  · rename_i hnone
    cases hclose
    exact hnone

theorem op_keeps_closed {Arg : Type} (sprintf : String → List Arg → Option String) (f : OsFile)
    (op : PublicOp Arg) (w w1 : World) (hinv : ClosedSink f w)
    (h : op.run sprintf w = Except.ok w1) : ClosedSink f w1 ∧ w1.files = w.files := by
  obtain ⟨honce, hclosed, l, hl, hlf, hfw⟩ := hinv
  cases op with
  | setup level path =>
    rcases Setup_cases level path w w1 h with ⟨_, rfl⟩ | ⟨hd, _, _⟩
    · exact ⟨⟨honce, hclosed, l, hl, hlf, hfw⟩, rfl⟩
    · rw [honce] at hd
      cases hd
  | emit c =>
    obtain ⟨l2, hl2, hw1⟩ := run_cases sprintf c w w1 h
    have hll : l2 = l := Option.some.inj (hl2.symm.trans hl)
    subst hll
    rcases hw1 with rfl | ⟨line, rfl⟩
    · exact ⟨⟨honce, hclosed, l2, hl, hlf, hfw⟩, rfl⟩
    · have hfr := afterRecord_frame l2 line w
      exact ⟨⟨hfr.2.1 ▸ honce, hfr.2.2 ▸ hclosed, l2, hfr.1 ▸ hl, hlf, hfw⟩,
        afterRecord_closed_files l2 line w f hfw hclosed⟩
  | setLogLevel level =>
    obtain ⟨l2, hl2, rfl⟩ := SetLogLevel_cases level w w1 h
    have hll : l2 = l := Option.some.inj (hl2.symm.trans hl)
    subst hll
    exact ⟨⟨honce, hclosed, _, rfl, hlf, hfw⟩, rfl⟩
  | close =>
    have hf := Close_frame w w1 h
    exact ⟨Close_closes w w1 l f hl hlf hfw honce h, hf.2.2.1⟩

theorem ops_keep_closed {Arg : Type} (sprintf : String → List Arg → Option String) (f : OsFile) :
    ∀ (ops : List (PublicOp Arg)) (w w1 : World), ClosedSink f w →
      runOps sprintf ops w = Except.ok w1 → ClosedSink f w1 ∧ w1.files = w.files
  | [], w, w1, hinv, h => by
    cases h
    exact ⟨hinv, rfl⟩
  | op :: ops, w, w1, hinv, h => by
    unfold runOps at h
    split at h
    · rename_i w2 hop
      obtain ⟨hinv2, hfiles2⟩ := op_keeps_closed sprintf f op w w2 hinv hop
      obtain ⟨hinv1, hfiles1⟩ := ops_keep_closed sprintf f ops w2 w1 hinv2 h
      exact ⟨hinv1, hfiles1.trans hfiles2⟩
    · cases h

/-- Counterexample to C6 as stated: after `Setup(DEBUG, "out.log")` and
`Close()`, `Info("svc", "hello")` does make a write call on the closed file
object (the file writer is still there); the call fails. -/
theorem write_after_close :
    Setup DEBUG "out.log" demoStart = Except.ok demoFile ∧
      Close demoFile = Except.ok demoClosed ∧
      ∃ w2, Info "svc" "hello" demoClosed = Except.ok w2 ∧
        w2.fileCalls = demoClosed.fileCalls ++
          [FileCall.write ⟨0⟩
            "2009/11/10 23:00:00 \x1b[36m[svc] 2009-11-10T23:00:00Z\x1b[0m: hello\x1b[0m\n" false] :=
  ⟨rfl, rfl, _, rfl, rfl⟩

/-- C6, amended: let `Close()` return on a logger set up with file `f`.  An
accepted call (with message body `b`, as in C2) right after it prints the same console text as the same call
right before it, and leaves every file as it was at `Close`.  After any further
run of public operations, every file still has the content it had at `Close`,
and an accepted call returns, leaves the files so, and adds to the console
exactly the record of C2. -/
theorem emission_after_close {Arg : Type} (sprintf : String → List Arg → Option String)
    (w wc : World) (l : Logger) (f : OsFile) (h : w.defaultLogger = some l)
    (hlf : l.logFile = some f) (hfw : l.fileWriter = some (logNew f "" LstdFlags))
    (honce : w.onceDone = true) (hclose : Close w = Except.ok wc) :
    (∀ (c : Call Arg) (b : String), c.body sprintf = some b → l.logLevel ≤ c.severity →
      ∃ wa wb, c.run sprintf w = Except.ok wa ∧ c.run sprintf wc = Except.ok wb ∧
        wb.stdout = wa.stdout ∧ wb.files = wc.files) ∧
    (∀ (ops : List (PublicOp Arg)) (w1 : World) (l1 : Logger) (c : Call Arg) (b : String),
      runOps sprintf ops wc = Except.ok w1 → w1.defaultLogger = some l1 →
      c.body sprintf = some b → l1.logLevel ≤ c.severity →
      ∃ w2, c.run sprintf w1 = Except.ok w2 ∧ w2.files = wc.files ∧
        w2.stdout = w1.stdout ++
          (c.color ++ "[" ++ c.label ++ "] " ++ formatRFC3339 (w1.clock w1.ticks) ++ "\x1b[0m" ++
            ": " ++ b ++ "\x1b[0m") ++ "\n") := by
  have hcl := Close_closes w wc l f h hlf hfw honce hclose
  have hf := Close_frame w wc hclose
  constructor
  · intro c b hb hacc
    refine ⟨_, _, run_of_le sprintf c w l b h hb hacc,
      run_of_le sprintf c wc l b (hf.1 ▸ h) hb hacc, ?_, ?_⟩
    · rw [afterRecord_stdout, afterRecord_stdout, hf.2.2.2.1, hf.2.2.2.2.1, hf.2.2.2.2.2]
    · exact afterRecord_closed_files l _ wc f hfw hcl.2.1
  · intro ops w1 l1 c b hops hl1 hb hacc
    obtain ⟨⟨_, hclosed1, l2, hl2, _, hfw2⟩, hfiles1⟩ := ops_keep_closed sprintf f ops wc w1 hcl hops
    have hll : l2 = l1 := Option.some.inj (hl2.symm.trans hl1)
    subst hll
    refine ⟨_, run_of_le sprintf c w1 l2 b hl1 hb hacc, ?_, afterRecord_stdout _ _ _⟩
    rw [afterRecord_closed_files l2 _ w1 f hfw2 hclosed1, hfiles1]

/-- Witness of C6, amended: `Info("svc", "hello")` after
`Setup(DEBUG, "out.log")` and `Close()`. -/
theorem emission_after_close_witness :
    ∃ w2, Info "svc" "hello" demoClosed = Except.ok w2 ∧ w2.files = demoClosed.files ∧
      w2.stdout = "\x1b[36m[svc] 2009-11-10T23:00:00Z\x1b[0m: hello\x1b[0m\n" :=
  (emission_after_close demoSprintf demoFile demoClosed
    ⟨DEBUG, some ⟨0⟩, some (logNew ⟨0⟩ "" LstdFlags)⟩ ⟨0⟩ rfl rfl rfl rfl rfl).2
    [] demoClosed ⟨DEBUG, some ⟨0⟩, some (logNew ⟨0⟩ "" LstdFlags)⟩ (Call.info "svc" "hello")
    "hello" rfl rfl rfl (by decide)

/-! ## C8: reading a file line back -/

theorem digitChar_plain (i : Nat) :
    digitChar i ≠ Char.ofNat 27 ∧ digitChar i ≠ Char.ofNat 93 := by
  unfold digitChar
  have hlt : i % 10 < 10 := Nat.mod_lt _ (by decide)
  generalize i % 10 = k at hlt
  interval_cases k <;> decide

theorem itoaLoop_plain :
    ∀ (fuel i wid : Nat) (acc : List Char),
      (∀ ch ∈ acc, ch ≠ Char.ofNat 27 ∧ ch ≠ Char.ofNat 93) →
      ∀ ch ∈ itoaLoop fuel i wid acc, ch ≠ Char.ofNat 27 ∧ ch ≠ Char.ofNat 93
  | 0, i, _, acc, hacc, ch, hch => by
    simp only [itoaLoop, List.mem_cons] at hch
    rcases hch with rfl | hch
    · exact digitChar_plain i
    · exact hacc ch hch
  | fuel + 1, i, wid, acc, hacc, ch, hch => by
    simp only [itoaLoop] at hch
    split at hch
    · refine itoaLoop_plain fuel (i / 10) (wid - 1) (digitChar i :: acc) ?_ ch hch
      intro d hd
      rcases List.mem_cons.mp hd with rfl | hd
      · exact digitChar_plain i
      · exact hacc d hd
    · rcases List.mem_cons.mp hch with rfl | hch
      · exact digitChar_plain i
      · exact hacc ch hch

theorem itoa_plain (i wid : Nat) :
    ∀ ch ∈ itoa i wid, ch ≠ Char.ofNat 27 ∧ ch ≠ Char.ofNat 93 :=
  itoaLoop_plain (i + wid) i wid [] (fun _ h => by cases h)

theorem zoneSuffix_plain (offset : Int) :
    ∀ ch ∈ zoneSuffix offset, ch ≠ Char.ofNat 27 ∧ ch ≠ Char.ofNat 93 := by
  intro ch hch
  unfold zoneSuffix at hch
  split at hch
  · rcases List.mem_singleton.mp hch with rfl
    decide
  · simp only at hch
    split at hch
    · simp only [List.mem_cons, List.mem_append] at hch
      rcases hch with rfl | hch | rfl | hch
      · decide
      · exact itoa_plain _ _ ch hch
      · decide
      · exact itoa_plain _ _ ch hch
    · simp only [List.mem_cons, List.mem_append] at hch
      rcases hch with rfl | hch | rfl | hch
      · decide
      · exact itoa_plain _ _ ch hch
      · decide
      · exact itoa_plain _ _ ch hch

theorem formatRFC3339_plain (t : Time) :
    ∀ ch ∈ (formatRFC3339 t).data, ch ≠ Char.ofNat 27 ∧ ch ≠ Char.ofNat 93 := by
  intro ch hch
  simp only [formatRFC3339, List.mem_cons, List.mem_append] at hch
  rcases hch with hch | rfl | hch | rfl | hch | rfl | hch | rfl | hch | rfl | hch | hch
  all_goals first
    | exact itoa_plain _ _ ch hch
    | exact zoneSuffix_plain _ ch hch
    | decide

theorem formatHeader_ne_esc (t : Time) :
    ∀ ch ∈ (formatHeader "" LstdFlags t).data, ch ≠ Char.ofNat 27 := by
  intro ch hch
  have h1 : (LstdFlags &&& Ldate ≠ 0) = True := by decide
  have h2 : (LstdFlags &&& Ltime ≠ 0) = True := by decide
  have h3 : ("" : String).data = [] := rfl
  simp only [formatHeader, h1, h2, if_true, String.data_append, h3, List.nil_append,
    List.mem_cons, List.mem_append, List.not_mem_nil, or_false] at hch
  rcases hch with (hch | rfl | hch | rfl | hch | rfl) | (hch | rfl | hch | rfl | hch | rfl)
  all_goals first
    | exact (itoa_plain _ _ ch hch).1
    | decide

theorem record_line_data (hdr color label ts body : String) (a b c d : Char)
    (hc : color.data = [Char.ofNat 27, a, b, c, d]) :
    (hdr ++ (record color label ts body ++ "\n")).data =
      hdr.data ++ (Char.ofNat 27 :: a :: b :: c :: d :: Char.ofNat 91 ::
        (label.data ++ (Char.ofNat 93 :: Char.ofNat 32 ::
          (ts.data ++ (Char.ofNat 27 :: Char.ofNat 91 :: Char.ofNat 48 :: Char.ofNat 109 ::
            Char.ofNat 58 :: Char.ofNat 32 ::
            (body.data ++ [Char.ofNat 27, Char.ofNat 91, Char.ofNat 48, Char.ofNat 109,
              Char.ofNat 10])))))) := by
  have e1 : ("[" : String).data = [Char.ofNat 91] := by decide
  have e2 : ("] " : String).data = [Char.ofNat 93, Char.ofNat 32] := by decide
  have e3 : ("\x1b[0m" : String).data =
      [Char.ofNat 27, Char.ofNat 91, Char.ofNat 48, Char.ofNat 109] := by decide
  have e4 : (": " : String).data = [Char.ofNat 58, Char.ofNat 32] := by decide
  have e5 : ("\n" : String).data = [Char.ofNat 10] := by decide
  simp only [record, String.data_append, hc, e1, e2, e3, e4, e5, List.append_assoc,
    List.cons_append, List.nil_append]

theorem split_at_inj {α : Type} (e : α) (xs ys r r1 : List α) (hx : e ∉ xs) (hy : e ∉ ys)
    (h : xs ++ e :: r = ys ++ e :: r1) : xs = ys ∧ r = r1 := by
  rcases List.append_eq_append_iff.mp h with ⟨a, hys, hr⟩ | ⟨a, hxs, hr⟩
  · cases a with
    | nil =>
      simp only [List.append_nil, List.nil_append] at hys hr
      exact ⟨hys.symm, (List.cons.inj hr).2⟩
    | cons x a =>
      simp only [List.cons_append] at hr
      have hxe : e = x := (List.cons.inj hr).1
      exact absurd (by rw [hys, hxe]; simp) hy
  · cases a with
    | nil =>
      simp only [List.append_nil, List.nil_append] at hxs hr
      exact ⟨hxs, (List.cons.inj hr).2.symm⟩
    | cons x a =>
      simp only [List.cons_append] at hr
      have hxe : e = x := (List.cons.inj hr).1
      exact absurd (by rw [hxs, hxe]; simp) hx

theorem delim_prefix (ts a tail y : List Char) (hts : Char.ofNat 93 ∉ ts)
    (h : Char.ofNat 93 :: Char.ofNat 32 :: (ts ++ (Char.ofNat 27 :: Char.ofNat 91 ::
        Char.ofNat 48 :: Char.ofNat 109 :: Char.ofNat 58 :: Char.ofNat 32 :: tail)) =
      a ++ Char.ofNat 93 :: Char.ofNat 32 :: y) :
    a = [] ∨ ∃ u, a = Char.ofNat 93 :: Char.ofNat 32 :: (ts ++ (Char.ofNat 27 :: Char.ofNat 91 ::
        Char.ofNat 48 :: Char.ofNat 109 :: Char.ofNat 58 :: Char.ofNat 32 :: u)) := by
  cases a with
  | nil => exact Or.inl rfl
  | cons x a2 =>
    right
    simp only [List.cons_append] at h
    obtain ⟨hx, h2⟩ := List.cons.inj h
    subst hx
    have hP : Char.ofNat 93 ∉ Char.ofNat 32 :: (ts ++ [Char.ofNat 27, Char.ofNat 91,
        Char.ofNat 48, Char.ofNat 109, Char.ofNat 58, Char.ofNat 32]) := by
      simp only [List.mem_cons, List.mem_append, List.not_mem_nil, or_false, not_or]
      refine ⟨by decide, hts, by decide, by decide, by decide, by decide, by decide, by decide⟩
    have h3 : (Char.ofNat 32 :: (ts ++ [Char.ofNat 27, Char.ofNat 91, Char.ofNat 48,
        Char.ofNat 109, Char.ofNat 58, Char.ofNat 32])) ++ tail =
        a2 ++ Char.ofNat 93 :: Char.ofNat 32 :: y := by
      rw [← h2]
      simp
    rcases List.append_eq_append_iff.mp h3 with ⟨u, ha2, _⟩ | ⟨c, hc, hy⟩
    · exact ⟨u, by rw [ha2]; simp⟩
    · cases c with
      | nil =>
        simp only [List.append_nil] at hc
        exact ⟨[], by rw [← hc]⟩
      | cons z c2 =>
        simp only [List.cons_append] at hy
        have hz : Char.ofNat 93 = z := (List.cons.inj hy).1
        exact absurd (by rw [hc, hz]; simp) hP

theorem record_tail_inj (m1 m2 ts1 ts2 b1 b2 : List Char)
    (hts1 : ∀ ch ∈ ts1, ch ≠ Char.ofNat 27 ∧ ch ≠ Char.ofNat 93)
    (hts2 : ∀ ch ∈ ts2, ch ≠ Char.ofNat 27 ∧ ch ≠ Char.ofNat 93)
    (hm1 : ¬ ∃ u v, m1 = u ++ Char.ofNat 93 :: Char.ofNat 32 :: (ts2 ++ (Char.ofNat 27 ::
      Char.ofNat 91 :: Char.ofNat 48 :: Char.ofNat 109 :: Char.ofNat 58 :: Char.ofNat 32 :: v)))
    (hm2 : ¬ ∃ u v, m2 = u ++ Char.ofNat 93 :: Char.ofNat 32 :: (ts1 ++ (Char.ofNat 27 ::
      Char.ofNat 91 :: Char.ofNat 48 :: Char.ofNat 109 :: Char.ofNat 58 :: Char.ofNat 32 :: v)))
    (h : m1 ++ Char.ofNat 93 :: Char.ofNat 32 :: (ts1 ++ (Char.ofNat 27 :: Char.ofNat 91 ::
          Char.ofNat 48 :: Char.ofNat 109 :: Char.ofNat 58 :: Char.ofNat 32 ::
          (b1 ++ [Char.ofNat 27, Char.ofNat 91, Char.ofNat 48, Char.ofNat 109, Char.ofNat 10]))) =
        m2 ++ Char.ofNat 93 :: Char.ofNat 32 :: (ts2 ++ (Char.ofNat 27 :: Char.ofNat 91 ::
          Char.ofNat 48 :: Char.ofNat 109 :: Char.ofNat 58 :: Char.ofNat 32 ::
          (b2 ++ [Char.ofNat 27, Char.ofNat 91, Char.ofNat 48, Char.ofNat 109, Char.ofNat 10])))) :
    m1 = m2 ∧ ts1 = ts2 ∧ b1 = b2 := by
  have n1 : Char.ofNat 93 ∉ ts1 := fun hmem => (hts1 _ hmem).2 rfl
  have n2 : Char.ofNat 93 ∉ ts2 := fun hmem => (hts2 _ hmem).2 rfl
  have e1 : Char.ofNat 27 ∉ ts1 := fun hmem => (hts1 _ hmem).1 rfl
  have e2 : Char.ofNat 27 ∉ ts2 := fun hmem => (hts2 _ hmem).1 rfl
  have hm : m1 = m2 := by
    rcases List.append_eq_append_iff.mp h with ⟨a, ha, hr⟩ | ⟨a, ha, hr⟩
    · rcases delim_prefix ts1 a _ _ n1 hr with rfl | ⟨u, rfl⟩
      · simpa using ha.symm
      · exact absurd ⟨m1, u, ha⟩ hm2
    · rcases delim_prefix ts2 a _ _ n2 hr with rfl | ⟨u, rfl⟩
      · simpa using ha
      · exact absurd ⟨m2, u, ha⟩ hm1
  subst hm
  have h2 := List.append_cancel_left h
  have h3 := (List.cons.inj (List.cons.inj h2).2).2
  obtain ⟨hts, h4⟩ := split_at_inj (Char.ofNat 27) ts1 ts2 _ _ e1 e2 h3
  refine ⟨rfl, hts, ?_⟩
  have h5 := (List.cons.inj (List.cons.inj (List.cons.inj (List.cons.inj
    (List.cons.inj h4).2).2).2).2).2
  exact List.append_cancel_right h5

theorem embeds_of_data (m ts : String) (t : Time) (hts : ts = formatRFC3339 t)
    (h : ∃ u v, m.data = u ++ Char.ofNat 93 :: Char.ofNat 32 :: (ts.data ++ (Char.ofNat 27 ::
      Char.ofNat 91 :: Char.ofNat 48 :: Char.ofNat 109 :: Char.ofNat 58 :: Char.ofNat 32 :: v))) :
    EmbedsDelimiter m := by
  obtain ⟨u, v, huv⟩ := h
  refine ⟨String.mk u, String.mk v, t, String.ext ?_⟩
  have e2 : ("] " : String).data = [Char.ofNat 93, Char.ofNat 32] := by decide
  have e3 : ("\x1b[0m" : String).data =
      [Char.ofNat 27, Char.ofNat 91, Char.ofNat 48, Char.ofNat 109] := by decide
  have e4 : (": " : String).data = [Char.ofNat 58, Char.ofNat 32] := by decide
  rw [huv, hts]
  simp only [String.data_append, e2, e3, e4, List.append_assoc, List.cons_append,
    List.nil_append]

/-- Two file lines that are equal carry the same module label, timestamp and
message, when neither label embeds the delimiter. -/
theorem file_line_inj (th1 th2 t1 t2 : Time) (col1 col2 m1 m2 b1 b2 : String)
    (hc1 : ∃ a b c d, col1.data = [Char.ofNat 27, a, b, c, d])
    (hc2 : ∃ a b c d, col2.data = [Char.ofNat 27, a, b, c, d])
    (hm1 : ¬ EmbedsDelimiter m1) (hm2 : ¬ EmbedsDelimiter m2)
    (h : formatHeader "" LstdFlags th1 ++ (record col1 m1 (formatRFC3339 t1) b1 ++ "\n") =
      formatHeader "" LstdFlags th2 ++ (record col2 m2 (formatRFC3339 t2) b2 ++ "\n")) :
    m1 = m2 ∧ formatRFC3339 t1 = formatRFC3339 t2 ∧ b1 = b2 := by
  obtain ⟨a1, x1, c1, d1, hc1⟩ := hc1
  obtain ⟨a2, x2, c2, d2, hc2⟩ := hc2
  have hd := congrArg String.data h
  rw [record_line_data _ col1 m1 _ b1 a1 x1 c1 d1 hc1,
    record_line_data _ col2 m2 _ b2 a2 x2 c2 d2 hc2] at hd
  have g1 : Char.ofNat 27 ∉ (formatHeader "" LstdFlags th1).data :=
    fun hmem => formatHeader_ne_esc th1 _ hmem rfl
  have g2 : Char.ofNat 27 ∉ (formatHeader "" LstdFlags th2).data :=
    fun hmem => formatHeader_ne_esc th2 _ hmem rfl
  obtain ⟨_, hrest⟩ := split_at_inj (Char.ofNat 27) _ _ _ _ g1 g2 hd
  have hrest2 := (List.cons.inj (List.cons.inj (List.cons.inj (List.cons.inj
    (List.cons.inj hrest).2).2).2).2).2
  obtain ⟨hm, hts, hb⟩ := record_tail_inj m1.data m2.data (formatRFC3339 t1).data
    (formatRFC3339 t2).data b1.data b2.data (formatRFC3339_plain t1) (formatRFC3339_plain t2)
    (fun hex => hm1 (embeds_of_data m1 _ t2 rfl hex))
    (fun hex => hm2 (embeds_of_data m2 _ t1 rfl hex)) hrest2
  exact ⟨String.ext hm, String.ext hts, String.ext hb⟩

/-- Every label that embeds the delimiter does collide: its record is also the
record of the label before the delimiter, with the rest moved into the
message. -/
theorem embedded_label_collides (col pre post b : String) (t t2 : Time) :
    record col (pre ++ "] " ++ formatRFC3339 t ++ "\x1b[0m" ++ ": " ++ post)
        (formatRFC3339 t2) b =
      record col pre (formatRFC3339 t)
        (post ++ "] " ++ formatRFC3339 t2 ++ "\x1b[0m" ++ ": " ++ b) := by
  simp only [record, String.append_assoc]

/-- A label without the escape character does not embed the delimiter. -/
theorem not_embeds_of_no_esc (m : String) (h : Char.ofNat 27 ∉ m.data) :
    ¬ EmbedsDelimiter m := by
  rintro ⟨pre, post, t, hm⟩
  apply h
  have e3 : ("\x1b[0m" : String).data =
      [Char.ofNat 27, Char.ofNat 91, Char.ofNat 48, Char.ofNat 109] := by decide
  rw [hm]
  simp [String.data_append, e3]

theorem color_data {Arg : Type} (c : Call Arg) :
    ∃ a b d e, c.color.data = [Char.ofNat 27, a, b, d, e] := by
  cases c <;> exact ⟨_, _, _, _, rfl⟩

/-- Counterexample to C8 as stated: on the process set up with `out.log`, two
`Info` calls with different module labels (and different messages) append the
same line to the file, so no function of the line returns the module label. -/
theorem file_line_collision :
    ∃ wa wb,
      Info "a" "[q] 2009-11-10T23:00:00Z\x1b[0m: z" demoFile = Except.ok wa ∧
      Info "a] 2009-11-10T23:00:00Z\x1b[0m: [q" "z" demoFile = Except.ok wb ∧
      wa.files "out.log" = some
        "2009/11/10 23:00:00 \x1b[36m[a] 2009-11-10T23:00:00Z\x1b[0m: [q] 2009-11-10T23:00:00Z\x1b[0m: z\x1b[0m\n" ∧
      wb.files "out.log" = wa.files "out.log" ∧
      ("a" : String) ≠ "a] 2009-11-10T23:00:00Z\x1b[0m: [q" :=
  ⟨_, _, rfl, rfl, rfl, rfl, by decide⟩

/-- C8, amended: there is a parse function that, for every accepted call with
message body `b` whose module label does not embed the delimiter (`] `, an
RFC3339 timestamp, reset, `: `), reads the line the call appends to the open
file back as exactly the module label, the RFC3339 timestamp and `b`; so two
such calls that append the same line have the same label, timestamp and
message.  Labels with brackets, spaces or escapes are covered as long as the
whole delimiter does not occur in them; every label in which it occurs
collides (`embedded_label_collides`). -/
theorem file_line_parses :
    ∃ parse : String → String × String × String,
      ∀ {Arg : Type} (sprintf : String → List Arg → Option String) (c : Call Arg)
        (w : World) (l : Logger) (f : OsFile) (path old b : String),
        w.defaultLogger = some l → l.fileWriter = some (logNew f "" LstdFlags) →
        w.handles.lookup f.id = some path → w.files path = some old →
        c.body sprintf = some b → l.logLevel ≤ c.severity → ¬ EmbedsDelimiter c.label →
        ∃ w1 line, c.run sprintf w = Except.ok w1 ∧ w1.files path = some (old ++ line) ∧
          parse line = (c.label, formatRFC3339 (w.clock w.ticks), b) := by
  classical
  let W : String → String × String × String → Prop := fun line tr =>
    ∃ (th t : Time) (col : String), (∃ a b c d, col.data = [Char.ofNat 27, a, b, c, d]) ∧
      ¬ EmbedsDelimiter tr.1 ∧ tr.2.1 = formatRFC3339 t ∧
      line = formatHeader "" LstdFlags th ++ (record col tr.1 tr.2.1 tr.2.2 ++ "\n")
  have huniq : ∀ line tr1 tr2, W line tr1 → W line tr2 → tr1 = tr2 := by
    rintro line ⟨m1, s1, b1⟩ ⟨m2, s2, b2⟩ ⟨th1, t1, col1, hc1, hm1, hs1, hl1⟩
      ⟨th2, t2, col2, hc2, hm2, hs2, hl2⟩
    simp only at hs1 hs2 hl1 hl2 hm1 hm2
    subst hs1 hs2
    obtain ⟨hm, hts, hb⟩ := file_line_inj th1 th2 t1 t2 col1 col2 m1 m2 b1 b2 hc1 hc2 hm1 hm2
      (hl1.symm.trans hl2)
    rw [hm, hts, hb]
  refine ⟨fun line => if hx : ∃ tr, W line tr then Classical.choose hx else ("", "", ""), ?_⟩
  intro Arg sprintf c w l f path old b h hfw hopen hold hb hacc hlabel
  rw [run_of_le sprintf c w l b h hb hacc]
  refine ⟨_, formatHeader "" LstdFlags (w.clock (w.ticks + 1)) ++
    (record c.color c.label (formatRFC3339 (w.clock w.ticks)) b ++ "\n"), rfl, ?_, ?_⟩
  · rw [afterRecord_open l _ w _ path hfw hopen]
    simp [setFile, hold, logNew]
  · have hW : W (formatHeader "" LstdFlags (w.clock (w.ticks + 1)) ++
        (record c.color c.label (formatRFC3339 (w.clock w.ticks)) b ++ "\n"))
        (c.label, formatRFC3339 (w.clock w.ticks), b) :=
      ⟨_, _, c.color, color_data c, hlabel, rfl, rfl⟩
    have hx : ∃ tr, W (formatHeader "" LstdFlags (w.clock (w.ticks + 1)) ++
        (record c.color c.label (formatRFC3339 (w.clock w.ticks)) b ++ "\n")) tr := ⟨_, hW⟩
    beta_reduce
    rw [dif_pos hx]
    exact huniq _ _ _ (Classical.choose_spec hx) hW

/-- Witness of C8, amended: the line of `Warnf("arr[0] x", ...)`, a label
with brackets and a space, read back. -/
theorem file_line_parses_witness :
    ∃ parse : String → String × String × String,
      ∃ w1 line, Warnf demoSprintf "arr[0] x" "disk " [DemoArg.text "full"] demoFile =
          Except.ok w1 ∧
        w1.files "out.log" = some ("" ++ line) ∧
        parse line = ("arr[0] x", "2009-11-10T23:00:00Z", "disk full") := by
  obtain ⟨parse, hparse⟩ := file_line_parses
  exact ⟨parse, hparse demoSprintf (Call.warnf "arr[0] x" "disk " [DemoArg.text "full"]) demoFile
    ⟨DEBUG, some ⟨0⟩, some (logNew ⟨0⟩ "" LstdFlags)⟩ ⟨0⟩ "out.log" "" "disk full" rfl rfl rfl rfl
    rfl (by decide) (not_embeds_of_no_esc _ (by decide))⟩

end logger
